import Mathlib

/-!
Verification development for `src/insights_client/archive.py`
(class `InsightsArchive`): a shallow embedding of the archive
builder's path handling, ingestion, mapper execution and packaging
logic, together with theorems settling the specification claims.

Python strings are modelled as `List Char` (`PyStr`); filesystem and
subprocess side effects are modelled as explicit effect traces; code
that can raise returns `Except PyError`.
-/

set_option autoImplicit false

namespace Insights

/-- Python strings, modelled as lists of characters. -/
abbrev PyStr := List Char

/-- Convenience conversion from Lean string literals. -/
def str (s : String) : PyStr := s.data

/-- Python `s.lstrip('/')`: drop every leading `'/'` character. -/
def lstripSlash : PyStr → PyStr
  | [] => []
  | c :: rest => if c = '/' then lstripSlash rest else c :: rest

/-- Python `s.startswith('/')`. -/
def startsWithSlash : PyStr → Bool
  | [] => false
  | c :: _ => c = '/'

/-- Python `s.endswith('/')`, via the last character. -/
def endsWithSlash (s : PyStr) : Bool := s.getLast? = some '/'

/-- Two-argument `os.path.join` (posixpath): if `b` is absolute the
result is `b`; else if `a` is empty or ends with a separator the
result is `a ++ b`; else a separator is inserted. -/
def osPathJoin (a b : PyStr) : PyStr :=
  if startsWithSlash b then b
  else if a = [] ∨ endsWithSlash a then a ++ b
  else a ++ '/' :: b

/-- `InsightsArchive.get_full_archive_path` (archive.py line 60-64):
`os.path.join(self.archive_dir, path.lstrip('/'))`.  The instance
field `self.archive_dir` is passed explicitly. -/
def get_full_archive_path (archive_dir : PyStr) (path : PyStr) : PyStr :=
  osPathJoin archive_dir (lstripSlash path)

/-- Split a string on a separator character (every occurrence, keeping
empty components), as `str.split(sep)` does. -/
def pySplit (sep : Char) : PyStr → List PyStr
  | [] => [[]]
  | c :: rest =>
    let r := pySplit sep rest
    if c = sep then [] :: r
    else (c :: r.headI) :: r.tail

/-- Path components of a path string: split on `'/'`. -/
def splitSlash (s : PyStr) : List PyStr := pySplit '/' s

/-- One step of POSIX path resolution over a component list: empty
components and `.` are dropped, `..` removes the last accumulated
component, anything else is appended.  (Used only to give meaning to
"the physical path lies under a directory"; it is the standard
resolution of an absolute path with no symlinks, not code from the
repository.) -/
def normStep (acc : List PyStr) (comp : PyStr) : List PyStr :=
  if comp = [] ∨ comp = ['.'] then acc
  else if comp = ['.', '.'] then acc.dropLast
  else acc ++ [comp]

/-- Resolved component list of a path string. -/
def normalize (s : PyStr) : List PyStr :=
  (splitSlash s).foldl normStep []

/-- `isUnder base p`: after resolving `.` and `..`, the path `p`
denotes `base` itself or a location inside the directory `base`. -/
def isUnder (base p : PyStr) : Prop :=
  normalize base <+: normalize p

instance (base p : PyStr) : Decidable (isUnder base p) :=
  inferInstanceAs (Decidable (normalize base <+: normalize p))

/-- `InsightsArchive.get_compression_flag` (archive.py line 109-115):
a dict lookup `{"gz": "z", "xz": "J", "bz2": "j", "none": ""}` with
`.get(compressor, "z")`, i.e. default `"z"`. -/
def get_compression_flag (compressor : PyStr) : PyStr :=
  if compressor = str "gz" then str "z"
  else if compressor = str "xz" then str "J"
  else if compressor = str "bz2" then str "j"
  else if compressor = str "none" then []
  else str "z"

/-- Python exceptions distinguished by the model. -/
inductive PyError where
  /-- `TypeError`, e.g. `os.stat` applied to a non-string value. -/
  | typeError
  /-- `NameError` / `UnboundLocalError`: a local read before any assignment. -/
  | nameError
deriving DecidableEq, Repr

/-- Python truthiness of an optional string: `None` and `""` are falsy. -/
def truthyOptStr : Option PyStr → Bool
  | none => false
  | some s => !s.isEmpty

/-- Python `s.splitlines()` restricted to `'\n'` boundaries: an empty
string gives no lines, and a trailing newline does not contribute an
empty final line.  (The extra Unicode line boundaries Python also
recognises are irrelevant to every claim.) -/
def splitlines (s : PyStr) : List PyStr :=
  match s with
  | [] => []
  | _ :: _ =>
    let comps := pySplit '\n' s
    if comps.getLast? = some [] then comps.dropLast else comps

/-- A Python runtime value as far as `copy_dir` is concerned: either a
string or a list of strings.  `os.path.isdir` accepts only strings. -/
inductive PyVal where
  | pystr : PyStr → PyVal
  | pylist : List PyStr → PyVal

/-- `os.path.isdir` as called by the source: on a string it consults
the filesystem (abstracted by the predicate `isdir`); on a list it
raises `TypeError`, because `os.stat` rejects non-string arguments. -/
def os_path_isdir (isdir : PyStr → Bool) : PyVal → Except PyError Bool
  | PyVal.pystr s => Except.ok (isdir s)
  | PyVal.pylist _ => Except.error PyError.typeError

/-- Loop body of `InsightsArchive.copy_dir` (archive.py line 96-107).
Each iteration evaluates `os.path.isdir(path)` — note: on `path`, the
whole argument sequence, not on the loop variable `directory` — and on
success records the `shutil.copytree(directory, full_path)` call with
`full_path = os.path.join(self.archive_dir, directory.lstrip('/'))`.
The result is the list of performed `(source, destination)` copies. -/
def copy_dir_go (isdir : PyStr → Bool) (archive_dir : PyStr) (path : List PyStr) :
    List PyStr → Except PyError (List (PyStr × PyStr))
  | [] => Except.ok []
  | directory :: rest => do
    let b ← os_path_isdir isdir (PyVal.pylist path)
    let tailCopies ← copy_dir_go isdir archive_dir path rest
    if b then
      Except.ok ((directory, osPathJoin archive_dir (lstripSlash directory)) :: tailCopies)
    else
      Except.ok tailCopies

/-- `InsightsArchive.copy_dir` (archive.py line 96-107): iterate over
the argument `path` (a sequence of directory paths). -/
def copy_dir (isdir : PyStr → Bool) (archive_dir : PyStr) (path : List PyStr) :
    Except PyError (List (PyStr × PyStr)) :=
  copy_dir_go isdir archive_dir path path

section Builder

variable {μ ρ : Type}

/-- Invocation context handed to a mapper (`falafel.core.context.Context`):
the artifact's output split into lines plus the physical path it was
written to. -/
structure PContext where
  content : List PyStr
  path : PyStr
deriving DecidableEq

/-- A registered mapper.  `id` is the mapper's identity (the dict key
used in `self.mapper_output[m]`); `isComputedMeta` models the
`isinstance(m, ComputedMeta)` test; the two invocation shapes either
raise (`Except.error`) or return a value whose Python truthiness is
modelled by `Option ρ` (`none` = falsy result). -/
structure Mapper (μ ρ : Type) where
  id : μ
  isComputedMeta : Bool
  parse_context : PContext → Except Unit (Option ρ)
  call : PContext → Except Unit (Option ρ)

/-- Dispatch on mapper shape, as in archive.py line 183-186. -/
def invokeMapper (m : Mapper μ ρ) (ctx : PContext) : Except Unit (Option ρ) :=
  if m.isComputedMeta then m.parse_context ctx else m.call ctx

/-- The processor registry `plugins.MAPPERS`: logical name to the
ordered list of registered mappers. -/
abbrev MapperRegistry (μ ρ : Type) := List (PyStr × List (Mapper μ ρ))

/-- Registry lookup (`name in plugins.MAPPERS` / `plugins.MAPPERS.get(name)`). -/
def lookupMappers (reg : MapperRegistry μ ρ) (name : PyStr) : Option (List (Mapper μ ρ)) :=
  match reg with
  | [] => none
  | (k, ms) :: rest => if k = name then some ms else lookupMappers rest name

/-- `self.mapper_output[m].append(o)` on the `defaultdict(list)`
accumulator, modelled as an insertion-ordered association list. -/
def dictAppend [DecidableEq μ] (acc : List (μ × List ρ)) (k : μ) (r : ρ) :
    List (μ × List ρ) :=
  match acc with
  | [] => [(k, [r])]
  | (k', rs) :: rest =>
    if k' = k then (k', rs ++ [r]) :: rest else (k', rs) :: dictAppend rest k r

/-- One iteration of the mapper loop (archive.py line 180-193): invoke
the mapper; a raised exception is swallowed (`except: ... pass`); a
falsy result is dropped; a truthy result is appended under the
mapper's identity. -/
def run_one_mapper [DecidableEq μ] (ctx : PContext) (acc : List (μ × List ρ))
    (m : Mapper μ ρ) : List (μ × List ρ) :=
  match invokeMapper m ctx with
  | Except.error _ => acc
  | Except.ok none => acc
  | Except.ok (some o) => dictAppend acc m.id o

/-- The mapper loop over a list of registered mappers. -/
def run_mappers [DecidableEq μ] (ms : List (Mapper μ ρ)) (ctx : PContext)
    (acc : List (μ × List ρ)) : List (μ × List ρ) :=
  ms.foldl (run_one_mapper ctx) acc

/-- `InsightsArchive.execute_mappers` (archive.py line 178-193): if
`name` is registered, run every mapper for it over the context built
from the artifact output and path; otherwise do nothing. -/
def execute_mappers [DecidableEq μ] (reg : MapperRegistry μ ρ) (name : PyStr)
    (output : PyStr) (path : PyStr) (acc : List (μ × List ρ)) : List (μ × List ρ) :=
  match lookupMappers reg name with
  | none => acc
  | some ms => run_mappers ms { content := splitlines output, path := path } acc

/-- The mutable state of an `InsightsArchive` instance (archive.py
line 29-42).  `tmp_dir` comes from `tempfile.mkdtemp(prefix='/var/tmp/')`,
`hostname` from `determine_hostname`, `archive_name` is
`"insights-<hostname>-<timestamp>"`, `archive_dir`/`cmd_dir` are
created by `create_archive_dir`/`create_command_dir`, and
`mapper_output` is the `defaultdict(list)` accumulator. -/
structure InsightsArchiveState (μ ρ : Type) where
  tmp_dir : PyStr
  hostname : PyStr
  archive_name : PyStr
  archive_dir : PyStr
  cmd_dir : PyStr
  compressor : PyStr
  mapper_output : List (μ × List ρ)
deriving DecidableEq

/-- Well-formedness facts the constructor establishes: `mkdtemp`
returns a nonempty path without a trailing separator; the archive name
`"insights-<hostname>-<timestamp>"` is a nonempty single path
component distinct from `.` and `..`; the compressor names contain no
separator; `archive_dir`/`cmd_dir` are the joins computed by
`create_archive_dir` (line 48) and `create_command_dir` (line 56). -/
def WF (st : InsightsArchiveState μ ρ) : Prop :=
  st.tmp_dir ≠ [] ∧
  endsWithSlash st.tmp_dir = false ∧
  st.archive_name ≠ [] ∧
  '/' ∉ st.archive_name ∧
  st.archive_name ≠ ['.'] ∧
  st.archive_name ≠ ['.', '.'] ∧
  '/' ∉ st.compressor ∧
  st.archive_dir = osPathJoin st.tmp_dir st.archive_name ∧
  st.cmd_dir = osPathJoin st.archive_dir (str "insights_commands")

/-- Filesystem/subprocess side effects of the builder, in program order. -/
inductive Effect (μ ρ : Type) where
  /-- `write_data_to_file(output, archive_path)`: content, then path. -/
  | writeData : PyStr → PyStr → Effect μ ρ
  /-- `write_data_to_file(mapper.serialize({hostname: mapper_output}), path)`:
  the path, the single hostname key, and the accumulator serialized under it. -/
  | writeSerialized : PyStr → PyStr → List (μ × List ρ) → Effect μ ρ
  /-- `subprocess.call` of `tar c<flag>fS <tarFile> -C <dir> .`:
  compression flag, tar file name, directory tarred. -/
  | tarCmd : PyStr → PyStr → PyStr → Effect μ ρ
  /-- `shutil.rmtree(dir, ignore_errors)`. -/
  | rmtree : PyStr → Bool → Effect μ ρ
deriving DecidableEq

/-- `InsightsArchive.write_mapper_output` (archive.py line 117-122):
serialize `{self.hostname: self.mapper_output}` and write it to
`os.path.join(self.archive_dir, "output.json")`. -/
def write_mapper_output (st : InsightsArchiveState μ ρ) : Effect μ ρ :=
  Effect.writeSerialized (osPathJoin st.archive_dir (str "output.json"))
    st.hostname st.mapper_output

/-- `InsightsArchive.delete_archive_dir` (archive.py line 152-157):
`shutil.rmtree(self.archive_dir, True)` — `ignore_errors=True`, so a
missing tree is tolerated and the call never raises. -/
def delete_archive_dir (st : InsightsArchiveState μ ρ) : Effect μ ρ :=
  Effect.rmtree st.archive_dir true

/-- `InsightsArchive.delete_tmp_dir` (archive.py line 145-150):
`shutil.rmtree(self.tmp_dir, True)`. -/
def delete_tmp_dir (st : InsightsArchiveState μ ρ) : Effect μ ρ :=
  Effect.rmtree st.tmp_dir true

/-- `InsightsArchive.create_tar_file` (archive.py line 124-143), the
packaging step.  Returns the ordered effect trace and the returned tar
file name.  The trace is emitted unconditionally: the source never
inspects `subprocess.call`'s return value, so the `rmtree` of
`archive_dir` follows the tar invocation on every path.  The tarred
directory is `self.tmp_dir if not full_archive else self.archive_dir`
(line 139); in the source `full_archive` defaults to `False`. -/
def create_tar_file (st : InsightsArchiveState μ ρ) (full_archive : Bool) :
    List (Effect μ ρ) × PyStr :=
  let tar_file_name := osPathJoin st.tmp_dir st.archive_name
  let ext : PyStr := if st.compressor = str "none" then [] else '.' :: st.compressor
  let tar_file_name := tar_file_name ++ str ".tar" ++ ext
  ([write_mapper_output st,
    Effect.tarCmd (get_compression_flag st.compressor) tar_file_name
      (if !full_archive then st.tmp_dir else st.archive_dir),
    delete_archive_dir st],
   tar_file_name)

/-- `isinstance` classification of an `InsightsSpec` value:
`InsightsCommand`, `InsightsFile`, or neither. -/
inductive SpecKind where
  | command
  | file
  | other
deriving DecidableEq

/-- The fields of a spec object that `add_to_archive` reads.
`archive_path` is optional (`None` or empty is falsy); `output` is the
result of `spec.get_output()` (`None` or `""` is falsy). -/
structure InsightsSpecData where
  archive_path : Option PyStr
  kind : SpecKind
  mangled_command : PyStr
  relative_path : PyStr
  output : Option PyStr
deriving DecidableEq

/-- Destination computation of `add_to_archive` (archive.py line
164-171).  With a truthy `spec.archive_path` the destination is
`get_full_archive_path(spec.archive_path.lstrip('/'))`; otherwise an
`InsightsCommand` uses `os.path.join(self.cmd_dir,
spec.mangled_command.lstrip('/'))` and an `InsightsFile` uses
`get_full_archive_path(spec.relative_path.lstrip('/'))`; for any other
spec the local `archive_path` is never assigned (`none`). -/
def add_to_archive_dest (st : InsightsArchiveState μ ρ) (spec : InsightsSpecData) :
    Option PyStr :=
  if truthyOptStr spec.archive_path then
    some (get_full_archive_path st.archive_dir (lstripSlash (spec.archive_path.getD [])))
  else
    match spec.kind with
    | SpecKind.command => some (osPathJoin st.cmd_dir (lstripSlash spec.mangled_command))
    | SpecKind.file => some (get_full_archive_path st.archive_dir (lstripSlash spec.relative_path))
    | SpecKind.other => none

/-- `InsightsArchive.add_to_archive` (archive.py line 159-176).
Returns the write effects and the updated builder state, or the
exception that escapes.  If the output is falsy nothing happens; if it
is truthy the output is written to the destination — reading the local
`archive_path` raises `UnboundLocalError` (a `NameError`) when no
branch assigned it — and, when `name` is truthy, the mappers run. -/
def add_to_archive [DecidableEq μ] (st : InsightsArchiveState μ ρ)
    (reg : MapperRegistry μ ρ) (spec : InsightsSpecData) (name : Option PyStr) :
    Except PyError (List (Effect μ ρ) × InsightsArchiveState μ ρ) :=
  if truthyOptStr spec.output then
    match add_to_archive_dest st spec with
    | none => Except.error PyError.nameError
    | some archive_path =>
      let output := spec.output.getD []
      if truthyOptStr name then
        Except.ok ([Effect.writeData output archive_path],
          { st with mapper_output :=
              execute_mappers reg (name.getD []) output archive_path st.mapper_output })
      else
        Except.ok ([Effect.writeData output archive_path], st)
  else
    Except.ok ([], st)

/-- `InsightsArchive.add_metadata_to_archive` (archive.py line
195-200): resolve `meta_path.lstrip('/')` through
`get_full_archive_path` and write the metadata there. -/
def add_metadata_to_archive (st : InsightsArchiveState μ ρ)
    (metadata : PyStr) (meta_path : PyStr) : Effect μ ρ :=
  Effect.writeData metadata (get_full_archive_path st.archive_dir (lstripSlash meta_path))

end Builder


/-- A concrete builder state used to evaluate the theorems on real
inputs: the temp root a `mkdtemp` result, the archive name in the
`insights-<hostname>-<timestamp>` shape, compressor `gz`. -/
def st0 : InsightsArchiveState Nat Nat :=
  { tmp_dir := str "/var/tmp/ins7Gk"
    hostname := str "host1"
    archive_name := str "insights-host1-20260101120000"
    archive_dir := str "/var/tmp/ins7Gk/insights-host1-20260101120000"
    cmd_dir := str "/var/tmp/ins7Gk/insights-host1-20260101120000/insights_commands"
    compressor := str "gz"
    mapper_output := [] }

/-- A mapper (plain callable shape) that succeeds with result `7`. -/
def mGood : Mapper Nat Nat :=
  { id := 0
    isComputedMeta := false
    parse_context := fun _ => Except.ok none
    call := fun _ => Except.ok (some 7) }

/-- A mapper (`ComputedMeta` shape) that raises on every invocation. -/
def mBad : Mapper Nat Nat :=
  { id := 1
    isComputedMeta := true
    parse_context := fun _ => Except.error ()
    call := fun _ => Except.error () }

/-- A registry with both mappers registered under the name `hosts`. -/
def reg0 : MapperRegistry Nat Nat := [(str "hosts", [mGood, mBad])]

/-- A file spec with an explicit archive path and two lines of output. -/
def spec1 : InsightsSpecData :=
  { archive_path := some (str "etc/hosts")
    kind := SpecKind.file
    mangled_command := []
    relative_path := str "etc/hosts"
    output := some (str "line1\nline2") }

/-- A second, independent file spec with nonempty output. -/
def spec2c : InsightsSpecData :=
  { archive_path := some (str "etc/fstab")
    kind := SpecKind.file
    mangled_command := []
    relative_path := str "etc/fstab"
    output := some (str "fs") }

/-- A spec whose provider yields no output (`get_output()` is `None`). -/
def specEmpty : InsightsSpecData :=
  { archive_path := some (str "etc/hosts")
    kind := SpecKind.file
    mangled_command := []
    relative_path := str "etc/hosts"
    output := none }

/-- A spec with no explicit archive path that is neither an
`InsightsCommand` nor an `InsightsFile`, but whose provider yields
output. -/
def specOrphan : InsightsSpecData :=
  { archive_path := none
    kind := SpecKind.other
    mangled_command := []
    relative_path := []
    output := some (str "data") }

/-!
Auxiliary lemmas about the path model, followed by the theorems that
settle the specification claims.
-/

theorem pySplit_ne_nil (sep : Char) (s : PyStr) : pySplit sep s ≠ [] := by
  cases s with
  | nil => simp [pySplit]
  | cons c rest =>
    simp only [pySplit]
    by_cases h : c = sep <;> simp [h]

theorem pySplit_append_sep (sep : Char) (x y : PyStr) :
    pySplit sep (x ++ sep :: y) = pySplit sep x ++ pySplit sep y := by
  induction x with
  | nil => simp [pySplit]
  | cons c rest ih =>
    by_cases h : c = sep
    · simp [pySplit, h, ih]
    · obtain ⟨comp, comps, hr⟩ := List.exists_cons_of_ne_nil (pySplit_ne_nil sep rest)
      simp [pySplit, h, ih, hr]

theorem pySplit_no_sep (sep : Char) (s : PyStr) (h : sep ∉ s) :
    pySplit sep s = [s] := by
  induction s with
  | nil => simp [pySplit]
  | cons c rest ih =>
    simp only [List.mem_cons, not_or] at h
    have hne : ¬ c = sep := fun hc => h.1 hc.symm
    simp [pySplit, hne, ih h.2]

theorem lstripSlash_no_lead (p : PyStr) : startsWithSlash (lstripSlash p) = false := by
  induction p with
  | nil => simp [lstripSlash, startsWithSlash]
  | cons c rest ih =>
    by_cases h : c = '/'
    · simp [lstripSlash, h, ih]
    · simp [lstripSlash, h, startsWithSlash]

theorem splitSlash_lstrip_sub (p : PyStr) (h : ['.', '.'] ∉ splitSlash p) :
    ['.', '.'] ∉ splitSlash (lstripSlash p) := by
  induction p with
  | nil => simpa [lstripSlash] using h
  | cons c rest ih =>
    by_cases hc : c = '/'
    · subst hc
      have hsplit : splitSlash ('/' :: rest) = [] :: splitSlash rest := by
        simp [splitSlash, pySplit]
      rw [hsplit] at h
      simp only [List.mem_cons, not_or] at h
      simpa [lstripSlash] using ih h.2
    · simpa [lstripSlash, hc] using h

theorem normalize_append_slash (x y : PyStr) :
    normalize (x ++ '/' :: y) = (splitSlash y).foldl normStep (normalize x) := by
  simp [normalize, splitSlash, pySplit_append_sep, List.foldl_append]

theorem foldl_normStep_extends :
    ∀ (comps : List PyStr) (acc : List PyStr), ['.', '.'] ∉ comps →
      acc <+: comps.foldl normStep acc := by
  intro comps
  induction comps with
  | nil => intro acc _; exact ⟨[], List.append_nil acc⟩
  | cons c cs ih =>
    intro acc h
    simp only [List.mem_cons, not_or] at h
    have h1 : acc <+: normStep acc c := by
      unfold normStep
      by_cases hc : c = [] ∨ c = ['.']
      · rw [if_pos hc]
      · rw [if_neg hc, if_neg (fun hcc => h.1 hcc.symm)]
        exact ⟨[c], rfl⟩
    exact h1.trans (ih (normStep acc c) h.2)

theorem no_slash_no_lead (s : PyStr) (h : '/' ∉ s) : startsWithSlash s = false := by
  cases s with
  | nil => rfl
  | cons c rest =>
    simp only [List.mem_cons, not_or] at h
    have hc : ¬ c = '/' := fun hc => h.1 hc.symm
    simp [startsWithSlash, hc]

theorem osPathJoin_no_lead (a b : PyStr) (ha : a ≠ []) (ha2 : endsWithSlash a = false)
    (hb : startsWithSlash b = false) : osPathJoin a b = a ++ '/' :: b := by
  unfold osPathJoin
  rw [hb]
  simp only [Bool.false_eq_true, if_false]
  rw [if_neg]
  push_neg
  exact ⟨ha, by simp [ha2]⟩

theorem normalize_join_comp (x s : PyStr) (hs : '/' ∉ s) (h0 : s ≠ [])
    (h1 : s ≠ ['.']) (h2 : s ≠ ['.', '.']) :
    normalize (x ++ '/' :: s) = normalize x ++ [s] := by
  rw [normalize_append_slash]
  rw [show splitSlash s = [s] from pySplit_no_sep '/' s hs]
  simp [normStep, h0, h1, h2]

/-- C8: resolving a path and resolving it with a leading separator
prepended yield the same physical path; in particular
`resolve("/etc/hosts")` equals `resolve("etc/hosts")`
(`get_full_archive_path` strips every leading `'/'`, archive.py
line 64). -/
theorem C8_resolve_strips_lead (archive_dir p : PyStr) :
    (get_full_archive_path archive_dir ('/' :: p) = get_full_archive_path archive_dir p) ∧
    (get_full_archive_path archive_dir (str "/etc/hosts") =
      get_full_archive_path archive_dir (str "etc/hosts")) := by
  constructor
  · rfl
  · rfl

/-- C9: the compression flag is `"z"` for `gz`, `"J"` for `xz`, `"j"`
for `bz2`, `""` for `none`, and defaults to `"z"` on every other
compressor value (`get_compression_flag`, archive.py line 109-115). -/
theorem C9_compression_flag_table (c : PyStr) :
    get_compression_flag (str "gz") = str "z" ∧
    get_compression_flag (str "xz") = str "J" ∧
    get_compression_flag (str "bz2") = str "j" ∧
    get_compression_flag (str "none") = str "" ∧
    (c ≠ str "gz" → c ≠ str "xz" → c ≠ str "bz2" → c ≠ str "none" →
      get_compression_flag c = str "z") := by
  refine ⟨rfl, rfl, rfl, rfl, fun h1 h2 h3 h4 => ?_⟩
  simp [get_compression_flag, h1, h2, h3, h4]

/-- Witness for C9 at the unrecognized compressor value `"lzma"`. -/
theorem C9_compression_flag_table_witness :
    str "lzma" ≠ str "gz" ∧ get_compression_flag (str "lzma") = str "z" :=
  ⟨by decide,
   (C9_compression_flag_table (str "lzma")).2.2.2.2
     (by decide) (by decide) (by decide) (by decide)⟩

/-- C2 is false as stated: the input `"../../etc/passwd"` has no
leading separator to strip, so the resolved physical path escapes
`archiveDir` once `..` components are resolved. -/
theorem C2_escape_counterexample :
    ¬ isUnder (str "/var/tmp/ins7Gk/insights-host1-20260101120000")
      (get_full_archive_path (str "/var/tmp/ins7Gk/insights-host1-20260101120000")
        (str "../../etc/passwd")) := by decide

/-- C2 (amended): for every archive-relative input path containing no
`..` component, the resolved physical path lies under `archiveDir`
(which is nonempty and has no trailing separator).  All three
ingestion operations resolve explicit paths through
`get_full_archive_path` (archive.py line 70, 165, 171, 199). -/
theorem C2_resolve_under_amended (archive_dir p : PyStr) (h1 : archive_dir ≠ [])
    (h2 : endsWithSlash archive_dir = false) (h3 : ['.', '.'] ∉ splitSlash p) :
    isUnder archive_dir (get_full_archive_path archive_dir p) := by
  unfold get_full_archive_path isUnder
  rw [osPathJoin_no_lead archive_dir (lstripSlash p) h1 h2 (lstripSlash_no_lead p)]
  rw [normalize_append_slash]
  exact foldl_normStep_extends (splitSlash (lstripSlash p)) (normalize archive_dir)
    (splitSlash_lstrip_sub p h3)

/-- Witness for the amended C2 at the archive dir of `st0` and the
input path `"etc/hosts"`. -/
theorem C2_resolve_under_amended_witness :
    ((str "/var/tmp/ins7Gk/insights-host1-20260101120000" : PyStr) ≠ [] ∧
     endsWithSlash (str "/var/tmp/ins7Gk/insights-host1-20260101120000") = false ∧
     ['.', '.'] ∉ splitSlash (str "etc/hosts")) ∧
    isUnder (str "/var/tmp/ins7Gk/insights-host1-20260101120000")
      (get_full_archive_path (str "/var/tmp/ins7Gk/insights-host1-20260101120000")
        (str "etc/hosts")) :=
  ⟨⟨by decide, by decide, by decide⟩,
   C2_resolve_under_amended _ _ (by decide) (by decide) (by decide)⟩

/-- C1 is false as stated: on the concrete builder state `st0`,
packaging with `full_archive = False` (the default) invokes tar over
the root `tmp_dir`, which differs from the archive subdirectory. -/
theorem C1_tar_dir_counterexample :
    (create_tar_file st0 false).1.get? 1 =
      some (Effect.tarCmd (str "z")
        (str "/var/tmp/ins7Gk/insights-host1-20260101120000.tar.gz") st0.tmp_dir) ∧
    st0.tmp_dir ≠ st0.archive_dir := by
  exact ⟨by decide, by decide⟩

/-- C1 (amended): the tar invocation targets the entire root
(`tmp_dir`) when `full_archive = False` (the default) and the archive
subdirectory when `full_archive = True` — the opposite assignment of
the claim (archive.py line 139). -/
theorem C1_tar_dir_amended (μ ρ : Type) (st : InsightsArchiveState μ ρ)
    (full_archive : Bool) :
    (create_tar_file st full_archive).1.get? 1 =
      some (Effect.tarCmd (get_compression_flag st.compressor)
        (create_tar_file st full_archive).2
        (if full_archive then st.archive_dir else st.tmp_dir)) := by
  cases full_archive <;> rfl

/-- C6: the packaging step first writes the serialized accumulator —
the dict keyed by hostname holding the per-mapper ordered results — to
`output.json` under the archive dir, before the tar invocation and the
cleanup; with an empty accumulator it writes the empty structure under
the hostname key. -/
theorem C6_output_json_first (μ ρ : Type) (st : InsightsArchiveState μ ρ) (fa : Bool) :
    (create_tar_file st fa).1 =
      [Effect.writeSerialized (osPathJoin st.archive_dir (str "output.json"))
         st.hostname st.mapper_output,
       Effect.tarCmd (get_compression_flag st.compressor) (create_tar_file st fa).2
         (if !fa then st.tmp_dir else st.archive_dir),
       Effect.rmtree st.archive_dir true] ∧
    (create_tar_file ({ st with mapper_output := [] } : InsightsArchiveState μ ρ) fa).1.head? =
      some (Effect.writeSerialized (osPathJoin st.archive_dir (str "output.json"))
        st.hostname ([] : List (μ × List ρ))) := ⟨rfl, rfl⟩

/-- C3 exhibits the code bug: `copy_dir` evaluates `os.path.isdir` on
the whole argument sequence `path` instead of the loop element
`directory` (archive.py line 101), so on the list `["/etc"]` it raises
`TypeError` before copying anything — even though the element is a
directory (`isdir` is constantly true here). -/
theorem C3_copy_dir_typeerror :
    copy_dir (fun _ => true) (str "/var/tmp/ins7Gk/insights-host1-20260101120000")
      [str "/etc"] = Except.error PyError.typeError := rfl

/-- C5: when the provider yields empty or absent output,
`add_to_archive` writes nothing, leaves the state (including the
accumulator) unchanged, and its result is independent of the mapper
registry — no mapper is consulted (archive.py line 172-176). -/
theorem C5_empty_output_noop (μ ρ : Type) [DecidableEq μ]
    (st : InsightsArchiveState μ ρ) (reg : MapperRegistry μ ρ)
    (spec : InsightsSpecData) (name : Option PyStr)
    (h : truthyOptStr spec.output = false) :
    add_to_archive st reg spec name = Except.ok ([], st) := by
  unfold add_to_archive
  rw [h]
  simp

/-- Witness for C5: a spec whose `get_output()` is `None`, against the
nonempty registry `reg0`. -/
theorem C5_empty_output_noop_witness :
    truthyOptStr specEmpty.output = false ∧
    add_to_archive st0 reg0 specEmpty (some (str "hosts")) = Except.ok ([], st0) :=
  ⟨by decide, C5_empty_output_noop Nat Nat st0 reg0 specEmpty (some (str "hosts")) (by decide)⟩

/-- C10: a spec with no explicit `archive_path` that is neither an
`InsightsCommand` nor an `InsightsFile` leaves the local
`archive_path` unassigned, so when the provider yields truthy output
`add_to_archive` raises the unbound-local error instead of writing
anywhere (archive.py line 164-174). -/
theorem C10_unbound_dest_raises (μ ρ : Type) [DecidableEq μ]
    (st : InsightsArchiveState μ ρ) (reg : MapperRegistry μ ρ)
    (spec : InsightsSpecData) (name : Option PyStr)
    (h1 : spec.archive_path = none) (h2 : spec.kind = SpecKind.other)
    (h3 : truthyOptStr spec.output = true) :
    add_to_archive st reg spec name = Except.error PyError.nameError := by
  unfold add_to_archive add_to_archive_dest
  rw [h1, h2, h3]
  simp [truthyOptStr]

/-- Witness for C10 at the concrete orphan spec. -/
theorem C10_unbound_dest_raises_witness :
    (specOrphan.archive_path = none ∧ specOrphan.kind = SpecKind.other ∧
     truthyOptStr specOrphan.output = true) ∧
    add_to_archive st0 reg0 specOrphan none = Except.error PyError.nameError :=
  ⟨⟨by decide, by decide, by decide⟩,
   C10_unbound_dest_raises Nat Nat st0 reg0 specOrphan none rfl rfl (by decide)⟩

/-- C4: a mapper that raises is fully isolated.  With a registered
mapper list `ms1 ++ m :: ms2` under `n` where `m` raises on the
artifact's context: the artifact's file is still written (the write
effect precedes mapper execution, archive.py line 174-176), the
accumulator gains exactly the entries of the other mappers (`m`'s
invocation contributes nothing, line 187-190), and a subsequent,
independent artifact is still ingested successfully. -/
theorem C4_mapper_failure_isolated (μ ρ : Type) [DecidableEq μ]
    (st : InsightsArchiveState μ ρ) (reg : MapperRegistry μ ρ)
    (spec spec2 : InsightsSpecData) (n out out2 dest dest2 : PyStr)
    (ms1 ms2 : List (Mapper μ ρ)) (m : Mapper μ ρ)
    (hn : n ≠ [])
    (hreg : lookupMappers reg n = some (ms1 ++ m :: ms2))
    (hout : spec.output = some out) (houtne : out ≠ [])
    (hdest : add_to_archive_dest st spec = some dest)
    (hfail : invokeMapper m ⟨splitlines out, dest⟩ =
      Except.error ())
    (hout2 : spec2.output = some out2) (hout2ne : out2 ≠ [])
    (hdest2 : add_to_archive_dest st spec2 = some dest2) :
    add_to_archive st reg spec (some n) =
      Except.ok ([Effect.writeData out dest],
        { st with mapper_output :=
            (run_mappers (ms1 ++ ms2) ⟨splitlines out, dest⟩
              st.mapper_output) }) ∧
    add_to_archive
        ({ st with mapper_output :=
            (run_mappers (ms1 ++ ms2) ⟨splitlines out, dest⟩
              st.mapper_output) } : InsightsArchiveState μ ρ) reg spec2 none =
      Except.ok ([Effect.writeData out2 dest2],
        { st with mapper_output :=
            (run_mappers (ms1 ++ ms2) ⟨splitlines out, dest⟩
              st.mapper_output) }) := by
  have htr : truthyOptStr spec.output = true := by
    obtain ⟨c, cs, hcons⟩ := List.exists_cons_of_ne_nil houtne
    rw [hout, hcons]
    rfl
  have htr2 : truthyOptStr spec2.output = true := by
    obtain ⟨c, cs, hcons⟩ := List.exists_cons_of_ne_nil hout2ne
    rw [hout2, hcons]
    rfl
  have hntr : truthyOptStr (some n) = true := by
    obtain ⟨c, cs, hcons⟩ := List.exists_cons_of_ne_nil hn
    rw [hcons]
    rfl
  have hdrop : run_mappers (ms1 ++ m :: ms2)
      ⟨splitlines out, dest⟩ st.mapper_output =
      run_mappers (ms1 ++ ms2) ⟨splitlines out, dest⟩
        st.mapper_output := by
    unfold run_mappers
    rw [List.foldl_append, List.foldl_append, List.foldl_cons]
    have hskip : run_one_mapper ⟨splitlines out, dest⟩
        (List.foldl (run_one_mapper ⟨splitlines out, dest⟩)
          st.mapper_output ms1) m =
        List.foldl (run_one_mapper ⟨splitlines out, dest⟩)
          st.mapper_output ms1 := by
      unfold run_one_mapper
      rw [hfail]
    rw [hskip]
  constructor
  · unfold add_to_archive execute_mappers
    rw [htr, hdest, hntr]
    simp [hreg, hout, hdrop]
  · have hdest2' : add_to_archive_dest
        ({ st with mapper_output :=
            (run_mappers (ms1 ++ ms2) ⟨splitlines out, dest⟩
              st.mapper_output) } : InsightsArchiveState μ ρ) spec2 = some dest2 := hdest2
    unfold add_to_archive
    rw [htr2, hdest2']
    simp [hout2, truthyOptStr]

/-- Witness for C4: `mBad` raises, yet `spec1`'s output is written,
`mGood`'s result `7` is accumulated, no entry appears for `mBad`, and
the independent `spec2c` is then ingested successfully. -/
theorem C4_mapper_failure_isolated_witness :
    invokeMapper mBad ⟨splitlines (str "line1\nline2"),
      str "/var/tmp/ins7Gk/insights-host1-20260101120000/etc/hosts"⟩ =
      Except.error () ∧
    add_to_archive st0 reg0 spec1 (some (str "hosts")) =
      Except.ok ([Effect.writeData (str "line1\nline2")
          (str "/var/tmp/ins7Gk/insights-host1-20260101120000/etc/hosts")],
        { st0 with mapper_output := [(0, [7])] }) ∧
    add_to_archive ({ st0 with mapper_output := [(0, [7])] }) reg0 spec2c none =
      Except.ok ([Effect.writeData (str "fs")
          (str "/var/tmp/ins7Gk/insights-host1-20260101120000/etc/fstab")],
        { st0 with mapper_output := [(0, [7])] }) := by
  have h := C4_mapper_failure_isolated Nat Nat st0 reg0 spec1 spec2c
    (str "hosts") (str "line1\nline2") (str "fs")
    (str "/var/tmp/ins7Gk/insights-host1-20260101120000/etc/hosts")
    (str "/var/tmp/ins7Gk/insights-host1-20260101120000/etc/fstab")
    [mGood] [] mBad (by decide) rfl rfl (by decide) rfl rfl rfl (by decide) rfl
  exact ⟨rfl, h.1, h.2⟩

/-- C7: packaging emits exactly the write, the tar invocation, and then
the unconditional `rmtree` of the archive subdirectory with
`ignore_errors=True` (the trace never branches on the tar step's
outcome, whose exit status the source ignores); no `rmtree` targets
anything but `archive_dir`; and the returned tar file lies under the
root `tmp_dir` but not under the deleted `archive_dir`. -/
theorem C7_unconditional_cleanup (μ ρ : Type) (st : InsightsArchiveState μ ρ)
    (fa : Bool) (h : WF st) :
    (create_tar_file st fa).1 =
      [write_mapper_output st,
       Effect.tarCmd (get_compression_flag st.compressor) (create_tar_file st fa).2
         (if !fa then st.tmp_dir else st.archive_dir),
       Effect.rmtree st.archive_dir true] ∧
    (∀ d b, Effect.rmtree d b ∈ (create_tar_file st fa).1 →
      d = st.archive_dir ∧ b = true) ∧
    isUnder st.tmp_dir (create_tar_file st fa).2 ∧
    ¬ isUnder st.archive_dir (create_tar_file st fa).2 := by
  obtain ⟨h1, h2, h3, h4, h5, h6, h7, h8, h9⟩ := h
  have hjoin : osPathJoin st.tmp_dir st.archive_name =
      st.tmp_dir ++ '/' :: st.archive_name :=
    osPathJoin_no_lead _ _ h1 h2 (no_slash_no_lead _ h4)
  have htar : (create_tar_file st fa).2 =
      st.tmp_dir ++ '/' :: (st.archive_name ++ (str ".tar" ++
        (if st.compressor = str "none" then ([] : PyStr) else '.' :: st.compressor))) := by
    show osPathJoin st.tmp_dir st.archive_name ++ str ".tar" ++ _ = _
    rw [hjoin]
    simp [List.append_assoc]
  have hcomp_noslash : '/' ∉ st.archive_name ++ (str ".tar" ++
      (if st.compressor = str "none" then ([] : PyStr) else '.' :: st.compressor)) := by
    intro hm
    rw [List.mem_append, List.mem_append] at hm
    rcases hm with hm | hm | hm
    · exact h4 hm
    · revert hm
      decide
    · by_cases hc : st.compressor = str "none"
      · rw [if_pos hc] at hm
        simp at hm
      · rw [if_neg hc] at hm
        rcases List.mem_cons.mp hm with hm | hm
        · exact absurd hm (by decide)
        · exact h7 hm
  have hlen : (st.archive_name ++ (str ".tar" ++
      (if st.compressor = str "none" then ([] : PyStr) else '.' :: st.compressor))).length ≥ 5 := by
    have hn1 : 1 ≤ st.archive_name.length := List.length_pos.mpr h3
    simp only [List.length_append]
    have h4len : (str ".tar").length = 4 := rfl
    omega
  have hne0 : st.archive_name ++ (str ".tar" ++
      (if st.compressor = str "none" then ([] : PyStr) else '.' :: st.compressor)) ≠ [] := by
    intro heq
    have hl := hlen
    rw [heq] at hl
    exact absurd hl (by decide)
  have hne1 : st.archive_name ++ (str ".tar" ++
      (if st.compressor = str "none" then ([] : PyStr) else '.' :: st.compressor)) ≠ ['.'] := by
    intro heq
    have hl := hlen
    rw [heq] at hl
    exact absurd hl (by decide)
  have hne2 : st.archive_name ++ (str ".tar" ++
      (if st.compressor = str "none" then ([] : PyStr) else '.' :: st.compressor)) ≠ ['.', '.'] := by
    intro heq
    have hl := hlen
    rw [heq] at hl
    exact absurd hl (by decide)
  have hnorm_tar : normalize (create_tar_file st fa).2 =
      normalize st.tmp_dir ++ [st.archive_name ++ (str ".tar" ++
        (if st.compressor = str "none" then ([] : PyStr) else '.' :: st.compressor))] := by
    rw [htar]
    exact normalize_join_comp _ _ hcomp_noslash hne0 hne1 hne2
  have hnorm_dir : normalize st.archive_dir =
      normalize st.tmp_dir ++ [st.archive_name] := by
    rw [h8, hjoin]
    exact normalize_join_comp _ _ h4 h3 h5 h6
  refine ⟨rfl, ?_, ?_, ?_⟩
  · intro d b hmem
    simp [create_tar_file, write_mapper_output, delete_archive_dir] at hmem
    exact hmem
  · unfold isUnder
    rw [hnorm_tar]
    exact ⟨_, rfl⟩
  · unfold isUnder
    rw [hnorm_dir, hnorm_tar]
    intro hpre
    obtain ⟨t, ht⟩ := hpre
    rw [List.append_assoc] at ht
    have ht2 := List.append_cancel_left ht
    rw [List.singleton_append] at ht2
    have ht3 : st.archive_name = st.archive_name ++ (str ".tar" ++
        (if st.compressor = str "none" then ([] : PyStr) else '.' :: st.compressor)) :=
      (List.cons.injEq _ _ _ _).mp ht2 |>.1
    have hlen2 := congrArg List.length ht3
    simp only [List.length_append] at hlen2
    have h4len : (str ".tar").length = 4 := rfl
    omega

/-- Witness for C7 on the concrete well-formed state `st0` with the
default `full_archive = false`. -/
theorem C7_unconditional_cleanup_witness :
    WF st0 ∧ isUnder st0.tmp_dir (create_tar_file st0 false).2 ∧
    ¬ isUnder st0.archive_dir (create_tar_file st0 false).2 := by
  have h := C7_unconditional_cleanup Nat Nat st0 false (by unfold WF; decide)
  refine ⟨by unfold WF; decide, h.2.2.1, h.2.2.2⟩

end Insights
